import Mathlib

/-!
LinkNet core: a shallow embedding with verified properties.

This development embeds the core of the LinkNet peer-to-peer application in
Lean 4 and proves properties of its wire-message layer, file-transfer state
machine, LAN discovery guard, chat history and cryptography wrappers.

Bytes are modelled as `Nat` (well-formedness predicates bound them below 256
where it matters), byte buffers as `List Nat`, and C++ `std::string` values
either as `String` (where only equality matters) or as `List Nat` of their
bytes (on the wire).  Fallible operations return `Option`.
-/

namespace LinkNet

/-! ## Big-endian integer fields (htobe32 / htobe64 and their inverses) -/

/-- Big-endian byte encoding of `n` on `k` bytes, as written by `htobe32` /
`htobe64` followed by `memcpy` in the C++ source.  Truncates to `k` bytes,
exactly as the `static_cast` to a fixed-width integer does. -/
def natToBytesBE : Nat → Nat → List Nat
  | 0, _ => []
  | k + 1, n => natToBytesBE k (n / 256) ++ [n % 256]

/-- Big-endian byte decoding, as performed by `memcpy` followed by `be32toh` /
`be64toh` in the C++ source. -/
def bytesToNatBE (l : List Nat) : Nat :=
  l.foldl (fun acc b => acc * 256 + b) 0

theorem natToBytesBE_length (k n : Nat) : (natToBytesBE k n).length = k := by
  induction k generalizing n with
  | zero => rfl
  | succ k ih => simp [natToBytesBE, ih]

theorem bytesToNatBE_append_singleton (l : List Nat) (b : Nat) :
    bytesToNatBE (l ++ [b]) = bytesToNatBE l * 256 + b := by
  simp [bytesToNatBE]

theorem bytesToNatBE_natToBytesBE (k n : Nat) :
    bytesToNatBE (natToBytesBE k n) = n % 256 ^ k := by
  induction k generalizing n with
  | zero => simp [natToBytesBE, bytesToNatBE, Nat.mod_one]
  | succ k ih =>
    rw [natToBytesBE, bytesToNatBE_append_singleton, ih]
    rw [pow_succ, Nat.mul_comm (256 ^ k) 256, Nat.mod_mul]
    ring

theorem bytesToNatBE_natToBytesBE_of_lt {k n : Nat} (h : n < 256 ^ k) :
    bytesToNatBE (natToBytesBE k n) = n := by
  rw [bytesToNatBE_natToBytesBE, Nat.mod_eq_of_lt h]

theorem natToBytesBE_mem_lt (k n : Nat) :
    ∀ b ∈ natToBytesBE k n, b < 256 := by
  induction k generalizing n with
  | zero => simp [natToBytesBE]
  | succ k ih =>
    intro b hb
    simp only [natToBytesBE, List.mem_append, List.mem_singleton] at hb
    rcases hb with h | h
    · exact ih _ _ h
    · subst h; exact Nat.mod_lt _ (by norm_num)

/-! ## Wire messages (`linknet/message.h`, message.cpp, file_transfer.cpp)

Each message carries the common header written by the C++ `Serialize`
implementations: a 1-byte kind tag, the 32-byte sender `PeerId`, the 16-byte
`MessageId` and an 8-byte big-endian timestamp, followed by the body. -/

/-- ChatMessage: kind tag 0, body is a 4-byte big-endian content length
followed by the content bytes. -/
structure ChatMessage where
  sender : List Nat
  msgId : List Nat
  timestamp : Nat
  content : List Nat
  deriving DecidableEq, Repr

/-- FileTransferRequestMessage: kind tag 1, body is an 8-byte big-endian file
size, a 4-byte big-endian filename length and the filename bytes. -/
structure FileTransferRequestMessage where
  sender : List Nat
  msgId : List Nat
  timestamp : Nat
  fileSize : Nat
  filename : List Nat
  deriving DecidableEq, Repr

/-- FileChunkMessage (file_transfer.cpp): kind tag 3, body is a 4-byte file id
length, the file id bytes, a 4-byte chunk index, a 4-byte data length and the
data bytes. -/
structure FileChunkMessage where
  sender : List Nat
  msgId : List Nat
  timestamp : Nat
  fileId : List Nat
  chunkIndex : Nat
  data : List Nat
  deriving DecidableEq, Repr

/-- FileTransferCompleteMessage (file_transfer.cpp): kind tag 4, body is a
4-byte file id length, the file id bytes, a 1-byte success flag, a 4-byte
error-message length and the error-message bytes. -/
structure FileTransferCompleteMessage where
  sender : List Nat
  msgId : List Nat
  timestamp : Nat
  fileId : List Nat
  success : Bool
  errorMessage : List Nat
  deriving DecidableEq, Repr

/-- Translation of `ChatMessage::Serialize`. -/
def ChatMessage.Serialize (m : ChatMessage) : List Nat :=
  [0] ++ (m.sender ++ (m.msgId ++ (natToBytesBE 8 m.timestamp
    ++ (natToBytesBE 4 m.content.length ++ m.content))))

/-- Translation of `ChatMessage::Deserialize`.  The C++ method mutates the
receiver and returns `bool`; here it returns the parsed message or `none`. -/
def ChatMessage.Deserialize (data : List Nat) : Option ChatMessage :=
  if data.length < 61 then none
  else if data.headD 0 ≠ 0 then none
  else
    let contentLen := bytesToNatBE ((data.drop 57).take 4)
    if data.length < 61 + contentLen then none
    else some { sender := (data.drop 1).take 32
                msgId := (data.drop 33).take 16
                timestamp := bytesToNatBE ((data.drop 49).take 8)
                content := (data.drop 61).take contentLen }

/-- Translation of `FileTransferRequestMessage::Serialize`. -/
def FileTransferRequestMessage.Serialize (m : FileTransferRequestMessage) : List Nat :=
  [1] ++ (m.sender ++ (m.msgId ++ (natToBytesBE 8 m.timestamp
    ++ (natToBytesBE 8 m.fileSize ++ (natToBytesBE 4 m.filename.length ++ m.filename)))))

/-- Translation of `FileTransferRequestMessage::Deserialize`. -/
def FileTransferRequestMessage.Deserialize (data : List Nat) :
    Option FileTransferRequestMessage :=
  if data.length < 69 then none
  else if data.headD 0 ≠ 1 then none
  else
    let filenameLen := bytesToNatBE ((data.drop 65).take 4)
    if data.length < 69 + filenameLen then none
    else some { sender := (data.drop 1).take 32
                msgId := (data.drop 33).take 16
                timestamp := bytesToNatBE ((data.drop 49).take 8)
                fileSize := bytesToNatBE ((data.drop 57).take 8)
                filename := (data.drop 69).take filenameLen }

/-- Translation of `FileChunkMessage::Serialize`. -/
def FileChunkMessage.Serialize (m : FileChunkMessage) : List Nat :=
  [3] ++ (m.sender ++ (m.msgId ++ (natToBytesBE 8 m.timestamp
    ++ (natToBytesBE 4 m.fileId.length ++ (m.fileId
    ++ (natToBytesBE 4 m.chunkIndex ++ (natToBytesBE 4 m.data.length ++ m.data)))))))

/-- Translation of `FileTransferCompleteMessage::Serialize`. -/
def FileTransferCompleteMessage.Serialize (m : FileTransferCompleteMessage) : List Nat :=
  [4] ++ (m.sender ++ (m.msgId ++ (natToBytesBE 8 m.timestamp
    ++ (natToBytesBE 4 m.fileId.length ++ (m.fileId
    ++ ([if m.success then 1 else 0] ++ (natToBytesBE 4 m.errorMessage.length
    ++ m.errorMessage)))))))

/-- Messages the factory can produce: `MessageFactory::CreateFromBuffer` only
constructs `ChatMessage` (tag 0) and `FileTransferRequestMessage` (tag 1). -/
inductive FactoryMessage where
  | chat (m : ChatMessage)
  | fileRequest (m : FileTransferRequestMessage)
  deriving DecidableEq, Repr

/-- Translation of `MessageFactory::CreateFromBuffer`: an empty buffer or one
shorter than 33 bytes yields null; otherwise the first byte selects the
variant, and any tag other than 0 or 1 yields null. -/
def MessageFactory.CreateFromBuffer (data : List Nat) : Option FactoryMessage :=
  if data.isEmpty then none
  else if data.length < 33 then none
  else if data.headD 0 = 0 then (ChatMessage.Deserialize data).map FactoryMessage.chat
  else if data.headD 0 = 1 then
    (FileTransferRequestMessage.Deserialize data).map FactoryMessage.fileRequest
  else none

/-- Well-formedness of a `ChatMessage` as built by the C++ constructors: the
sender is a 32-byte `PeerId`, the message id 16 bytes, the timestamp fits the
8-byte field and the content length fits the 4-byte field. -/
def ChatMessage.Wf (m : ChatMessage) : Prop :=
  m.sender.length = 32 ∧ m.msgId.length = 16 ∧ m.timestamp < 256 ^ 8 ∧
    m.content.length < 256 ^ 4 ∧
    (∀ b ∈ m.sender, b < 256) ∧ (∀ b ∈ m.msgId, b < 256) ∧ ∀ b ∈ m.content, b < 256

/-- Well-formedness of a `FileTransferRequestMessage` as built by the C++
constructors. -/
def FileTransferRequestMessage.Wf (m : FileTransferRequestMessage) : Prop :=
  m.sender.length = 32 ∧ m.msgId.length = 16 ∧ m.timestamp < 256 ^ 8 ∧
    m.fileSize < 256 ^ 8 ∧ m.filename.length < 256 ^ 4 ∧
    (∀ b ∈ m.sender, b < 256) ∧ (∀ b ∈ m.msgId, b < 256) ∧ ∀ b ∈ m.filename, b < 256

/-- Serialization of a factory-supported message. -/
def FactoryMessage.Serialize : FactoryMessage → List Nat
  | .chat m => m.Serialize
  | .fileRequest m => m.Serialize

/-- Well-formedness of a factory-supported message. -/
def FactoryMessage.Wf : FactoryMessage → Prop
  | .chat m => m.Wf
  | .fileRequest m => m.Wf

theorem chatSerialize_length (m : ChatMessage) (hs : m.sender.length = 32)
    (hid : m.msgId.length = 16) : m.Serialize.length = 61 + m.content.length := by
  simp [ChatMessage.Serialize, natToBytesBE_length, hs, hid]; omega

theorem chatDeserialize_chatSerialize (m : ChatMessage) (h : m.Wf) :
    ChatMessage.Deserialize m.Serialize = some m := by
  obtain ⟨hs, hid, hts, hc, -, -, -⟩ := h
  have hlen := chatSerialize_length m hs hid
  have d1 : m.Serialize.drop 1 =
      m.sender ++ (m.msgId ++ (natToBytesBE 8 m.timestamp
        ++ (natToBytesBE 4 m.content.length ++ m.content))) := by
    rw [ChatMessage.Serialize]
    exact List.drop_left' rfl
  have d33 : m.Serialize.drop 33 =
      m.msgId ++ (natToBytesBE 8 m.timestamp
        ++ (natToBytesBE 4 m.content.length ++ m.content)) := by
    rw [show (33 : Nat) = 1 + 32 from rfl, ← List.drop_drop, d1, List.drop_left' hs]
  have d49 : m.Serialize.drop 49 =
      natToBytesBE 8 m.timestamp ++ (natToBytesBE 4 m.content.length ++ m.content) := by
    rw [show (49 : Nat) = 33 + 16 from rfl, ← List.drop_drop, d33, List.drop_left' hid]
  have d57 : m.Serialize.drop 57 = natToBytesBE 4 m.content.length ++ m.content := by
    rw [show (57 : Nat) = 49 + 8 from rfl, ← List.drop_drop, d49,
      List.drop_left' (natToBytesBE_length 8 m.timestamp)]
  have d61 : m.Serialize.drop 61 = m.content := by
    rw [show (61 : Nat) = 57 + 4 from rfl, ← List.drop_drop, d57,
      List.drop_left' (natToBytesBE_length 4 m.content.length)]
  have hclen : bytesToNatBE ((m.Serialize.drop 57).take 4) = m.content.length := by
    rw [d57, List.take_left' (natToBytesBE_length 4 m.content.length),
      bytesToNatBE_natToBytesBE_of_lt hc]
  have hhead : m.Serialize.headD 0 = 0 := rfl
  rw [ChatMessage.Deserialize]
  rw [if_neg (by omega), hhead, if_neg (by simp), hclen, if_neg (by omega)]
  rw [d1, List.take_left' hs, d33, List.take_left' hid, d49,
    List.take_left' (natToBytesBE_length 8 m.timestamp),
    bytesToNatBE_natToBytesBE_of_lt hts, d61, List.take_length]

theorem requestSerialize_length (m : FileTransferRequestMessage)
    (hs : m.sender.length = 32) (hid : m.msgId.length = 16) :
    m.Serialize.length = 69 + m.filename.length := by
  simp [FileTransferRequestMessage.Serialize, natToBytesBE_length, hs, hid]; omega

theorem requestDeserialize_requestSerialize (m : FileTransferRequestMessage)
    (h : m.Wf) : FileTransferRequestMessage.Deserialize m.Serialize = some m := by
  obtain ⟨hs, hid, hts, hfs, hf, -, -, -⟩ := h
  have hlen := requestSerialize_length m hs hid
  have d1 : m.Serialize.drop 1 =
      m.sender ++ (m.msgId ++ (natToBytesBE 8 m.timestamp ++ (natToBytesBE 8 m.fileSize
        ++ (natToBytesBE 4 m.filename.length ++ m.filename)))) := by
    rw [FileTransferRequestMessage.Serialize]
    exact List.drop_left' rfl
  have d33 : m.Serialize.drop 33 =
      m.msgId ++ (natToBytesBE 8 m.timestamp ++ (natToBytesBE 8 m.fileSize
        ++ (natToBytesBE 4 m.filename.length ++ m.filename))) := by
    rw [show (33 : Nat) = 1 + 32 from rfl, ← List.drop_drop, d1, List.drop_left' hs]
  have d49 : m.Serialize.drop 49 =
      natToBytesBE 8 m.timestamp ++ (natToBytesBE 8 m.fileSize
        ++ (natToBytesBE 4 m.filename.length ++ m.filename)) := by
    rw [show (49 : Nat) = 33 + 16 from rfl, ← List.drop_drop, d33, List.drop_left' hid]
  have d57 : m.Serialize.drop 57 =
      natToBytesBE 8 m.fileSize ++ (natToBytesBE 4 m.filename.length ++ m.filename) := by
    rw [show (57 : Nat) = 49 + 8 from rfl, ← List.drop_drop, d49,
      List.drop_left' (natToBytesBE_length 8 m.timestamp)]
  have d65 : m.Serialize.drop 65 = natToBytesBE 4 m.filename.length ++ m.filename := by
    rw [show (65 : Nat) = 57 + 8 from rfl, ← List.drop_drop, d57,
      List.drop_left' (natToBytesBE_length 8 m.fileSize)]
  have d69 : m.Serialize.drop 69 = m.filename := by
    rw [show (69 : Nat) = 65 + 4 from rfl, ← List.drop_drop, d65,
      List.drop_left' (natToBytesBE_length 4 m.filename.length)]
  have hflen : bytesToNatBE ((m.Serialize.drop 65).take 4) = m.filename.length := by
    rw [d65, List.take_left' (natToBytesBE_length 4 m.filename.length),
      bytesToNatBE_natToBytesBE_of_lt hf]
  have hhead : m.Serialize.headD 0 = 1 := rfl
  rw [FileTransferRequestMessage.Deserialize]
  rw [if_neg (by omega), hhead, if_neg (by simp), hflen, if_neg (by omega)]
  rw [d1, List.take_left' hs, d33, List.take_left' hid, d49,
    List.take_left' (natToBytesBE_length 8 m.timestamp),
    bytesToNatBE_natToBytesBE_of_lt hts, d57,
    List.take_left' (natToBytesBE_length 8 m.fileSize),
    bytesToNatBE_natToBytesBE_of_lt hfs, d69, List.take_length]

theorem MessageFactory.CreateFromBuffer_chat (c : ChatMessage) (h : c.Wf) :
    MessageFactory.CreateFromBuffer c.Serialize = some (FactoryMessage.chat c) := by
  have hlen := chatSerialize_length c h.1 h.2.1
  rw [MessageFactory.CreateFromBuffer,
    show c.Serialize.isEmpty = false from rfl,
    show c.Serialize.headD 0 = 0 from rfl]
  rw [if_neg (by simp), if_neg (by omega), if_pos rfl,
    chatDeserialize_chatSerialize c h]
  rfl

theorem MessageFactory.CreateFromBuffer_fileRequest (r : FileTransferRequestMessage)
    (h : r.Wf) :
    MessageFactory.CreateFromBuffer r.Serialize = some (FactoryMessage.fileRequest r) := by
  have hlen := requestSerialize_length r h.1 h.2.1
  rw [MessageFactory.CreateFromBuffer,
    show r.Serialize.isEmpty = false from rfl,
    show r.Serialize.headD 0 = 1 from rfl]
  rw [if_neg (by simp), if_neg (by omega), if_neg (by simp), if_pos rfl,
    requestDeserialize_requestSerialize r h]
  rfl

/-! ## Cryptography (`src/crypto/sodium_crypto.cpp`)

The repository's `SodiumCryptoProvider` delegates symmetric encryption to
libsodium's `crypto_secretbox_easy` / `crypto_secretbox_open_easy`, whose
construction (XSalsa20-Poly1305) is modelled here byte-for-byte; libsodium
itself is an external dependency, not part of the repository. -/

/-- Little-endian byte encoding of `n` on `k` bytes. -/
def natToBytesLE : Nat → Nat → List Nat
  | 0, _ => []
  | k + 1, n => n % 256 :: natToBytesLE k (n / 256)

/-- Little-endian byte decoding. -/
def bytesToNatLE : List Nat → Nat
  | [] => 0
  | b :: rest => b + 256 * bytesToNatLE rest

theorem natToBytesLE_length (k n : Nat) : (natToBytesLE k n).length = k := by
  induction k generalizing n with
  | zero => rfl
  | succ k ih => simp [natToBytesLE, ih]

/-- Addition of 32-bit words. -/
def add32 (a b : Nat) : Nat := (a + b) % 4294967296

/-- Left rotation of a 32-bit word by `n` bits. -/
def rotl32 (a n : Nat) : Nat := ((a <<< n) % 4294967296) ||| (a >>> (32 - n))

/-- Little-endian 32-bit word loaded at byte offset `off` of a buffer. -/
def word32At (l : List Nat) (off : Nat) : Nat := bytesToNatLE ((l.drop off).take 4)

/-- Salsa20 internal state: sixteen 32-bit words. -/
structure SalsaState where
  y0 : Nat
  y1 : Nat
  y2 : Nat
  y3 : Nat
  y4 : Nat
  y5 : Nat
  y6 : Nat
  y7 : Nat
  y8 : Nat
  y9 : Nat
  y10 : Nat
  y11 : Nat
  y12 : Nat
  y13 : Nat
  y14 : Nat
  y15 : Nat

/-- Salsa20 quarter-round. -/
def quarterRound (a b c d : Nat) : Nat × Nat × Nat × Nat :=
  let b' := b ^^^ rotl32 (add32 a d) 7
  let c' := c ^^^ rotl32 (add32 b' a) 9
  let d' := d ^^^ rotl32 (add32 c' b') 13
  let a' := a ^^^ rotl32 (add32 d' c') 18
  (a', b', c', d')

/-- Salsa20 column round followed by row round. -/
def doubleRound (s : SalsaState) : SalsaState :=
  let (z0, z4, z8, z12) := quarterRound s.y0 s.y4 s.y8 s.y12
  let (z5, z9, z13, z1) := quarterRound s.y5 s.y9 s.y13 s.y1
  let (z10, z14, z2, z6) := quarterRound s.y10 s.y14 s.y2 s.y6
  let (z15, z3, z7, z11) := quarterRound s.y15 s.y3 s.y7 s.y11
  let (w0, w1, w2, w3) := quarterRound z0 z1 z2 z3
  let (w5, w6, w7, w4) := quarterRound z5 z6 z7 z4
  let (w10, w11, w8, w9) := quarterRound z10 z11 z8 z9
  let (w15, w12, w13, w14) := quarterRound z15 z12 z13 z14
  ⟨w0, w1, w2, w3, w4, w5, w6, w7, w8, w9, w10, w11, w12, w13, w14, w15⟩

/-- Iterated double rounds. -/
def doubleRounds : Nat → SalsaState → SalsaState
  | 0, s => s
  | n + 1, s => doubleRounds n (doubleRound s)

/-- Initial Salsa20 state for a 32-byte key and a 16-byte input block, with
the "expand 32-byte k" constants on the diagonal. -/
def salsaInit (key inp : List Nat) : SalsaState :=
  { y0 := 0x61707865
    y1 := word32At key 0
    y2 := word32At key 4
    y3 := word32At key 8
    y4 := word32At key 12
    y5 := 0x3320646e
    y6 := word32At inp 0
    y7 := word32At inp 4
    y8 := word32At inp 8
    y9 := word32At inp 12
    y10 := 0x79622d32
    y11 := word32At key 16
    y12 := word32At key 20
    y13 := word32At key 24
    y14 := word32At key 28
    y15 := 0x6b206574 }

/-- Salsa20 hash block: twenty rounds then word-wise feedforward addition,
serialized little-endian to 64 bytes. -/
def salsa20Block (key inp : List Nat) : List Nat :=
  let s := salsaInit key inp
  let z := doubleRounds 10 s
  natToBytesLE 4 (add32 s.y0 z.y0) ++ natToBytesLE 4 (add32 s.y1 z.y1)
    ++ natToBytesLE 4 (add32 s.y2 z.y2) ++ natToBytesLE 4 (add32 s.y3 z.y3)
    ++ natToBytesLE 4 (add32 s.y4 z.y4) ++ natToBytesLE 4 (add32 s.y5 z.y5)
    ++ natToBytesLE 4 (add32 s.y6 z.y6) ++ natToBytesLE 4 (add32 s.y7 z.y7)
    ++ natToBytesLE 4 (add32 s.y8 z.y8) ++ natToBytesLE 4 (add32 s.y9 z.y9)
    ++ natToBytesLE 4 (add32 s.y10 z.y10) ++ natToBytesLE 4 (add32 s.y11 z.y11)
    ++ natToBytesLE 4 (add32 s.y12 z.y12) ++ natToBytesLE 4 (add32 s.y13 z.y13)
    ++ natToBytesLE 4 (add32 s.y14 z.y14) ++ natToBytesLE 4 (add32 s.y15 z.y15)

/-- HSalsa20: twenty rounds without feedforward; words 0, 5, 10, 15, 6, 7, 8, 9
become the 32-byte derived key. -/
def hsalsa20 (key inp : List Nat) : List Nat :=
  let z := doubleRounds 10 (salsaInit key inp)
  natToBytesLE 4 z.y0 ++ natToBytesLE 4 z.y5 ++ natToBytesLE 4 z.y10
    ++ natToBytesLE 4 z.y15 ++ natToBytesLE 4 z.y6 ++ natToBytesLE 4 z.y7
    ++ natToBytesLE 4 z.y8 ++ natToBytesLE 4 z.y9

/-- Block `i` of the XSalsa20 keystream for a 32-byte key and 24-byte nonce:
HSalsa20 derives a subkey from the first 16 nonce bytes, and Salsa20 runs on
the remaining 8 nonce bytes with a little-endian 64-bit block counter. -/
def xsalsa20Block (key nonce : List Nat) (i : Nat) : List Nat :=
  salsa20Block (hsalsa20 key (nonce.take 16)) ((nonce.drop 16).take 8 ++ natToBytesLE 8 i)

/-- First `len` bytes of the XSalsa20 keystream. -/
def xsalsa20Stream (key nonce : List Nat) (len : Nat) : List Nat :=
  (((List.range ((len + 63) / 64)).map (xsalsa20Block key nonce)).flatten).take len

/-- Prime modulus of Poly1305. -/
def poly1305P : Nat := 2 ^ 130 - 5

/-- Poly1305 accumulation over 16-byte blocks (the final block may be short);
each block is extended with a high 1 bit.  The fuel argument bounds the
number of blocks; `msg.length` is always sufficient. -/
def poly1305Blocks : Nat → Nat → Nat → List Nat → Nat
  | 0, _, acc, _ => acc
  | _ + 1, _, acc, [] => acc
  | fuel + 1, r, acc, b :: rest =>
    poly1305Blocks fuel r
      (((acc + bytesToNatLE (((b :: rest).take 16) ++ [1])) * r) % poly1305P)
      ((b :: rest).drop 16)

/-- Poly1305 one-time authenticator: 16-byte tag of `msg` under a 32-byte key
(clamped `r` from the first half, `s` from the second half). -/
def poly1305 (msg key : List Nat) : List Nat :=
  let r := bytesToNatLE (key.take 16) &&& 0x0ffffffc0ffffffc0ffffffc0fffffff
  let s := bytesToNatLE ((key.drop 16).take 16)
  natToBytesLE 16 ((poly1305Blocks msg.length r 0 msg + s) % 2 ^ 128)

/-- Modelled from the spec: libsodium's `crypto_secretbox_easy` (XSalsa20-
Poly1305), which is called by `SodiumCryptoProvider::Encrypt` but is not part
of this repository.  The first 32 keystream bytes key the authenticator, the
message is XORed against the rest, and the output is the 16-byte tag followed
by the ciphertext. -/
def crypto_secretbox_easy (m key nonce : List Nat) : List Nat :=
  let s := xsalsa20Stream key nonce (32 + m.length)
  let c := List.zipWith Nat.xor m (s.drop 32)
  poly1305 c (s.take 32) ++ c

/-- Modelled from the spec: libsodium's `crypto_secretbox_open_easy`, called
by `SodiumCryptoProvider::Decrypt` but not part of this repository.  Fails on
inputs shorter than the tag and on tag mismatch. -/
def crypto_secretbox_open_easy (c key nonce : List Nat) : Option (List Nat) :=
  if c.length < 16 then none
  else
    let ct := c.drop 16
    let s := xsalsa20Stream key nonce (32 + ct.length)
    if poly1305 ct (s.take 32) = c.take 16 then
      some (List.zipWith Nat.xor ct (s.drop 32))
    else none

/-- Translation of `SodiumCryptoProvider::Encrypt`: allocates
`plaintext.size() + crypto_secretbox_MACBYTES` bytes and fills them with the
secretbox output (the primitive never fails). -/
def SodiumCryptoProvider.Encrypt (plaintext key nonce : List Nat) : List Nat :=
  crypto_secretbox_easy plaintext key nonce

/-- Translation of `SodiumCryptoProvider::Decrypt`: inputs shorter than the
16-byte MAC throw `invalid_argument`, and a failing
`crypto_secretbox_open_easy` throws `runtime_error`; both are `none` here. -/
def SodiumCryptoProvider.Decrypt (ciphertext key nonce : List Nat) :
    Option (List Nat) :=
  if ciphertext.length < 16 then none
  else crypto_secretbox_open_easy ciphertext key nonce

/-- Translation of `SodiumCryptoProvider::Verify`: a signature whose size is
not `crypto_sign_BYTES` (64) is rejected immediately; otherwise the result is
the boolean outcome of libsodium's `crypto_sign_verify_detached`, which is
abstracted as the function argument (it returns an error code, never
throws). -/
def SodiumCryptoProvider.Verify
    (verifyDetached : List Nat → List Nat → List Nat → Bool)
    (message signature publicKey : List Nat) : Bool :=
  if signature.length ≠ 64 then false
  else verifyDetached signature message publicKey

theorem salsa20Block_length (key inp : List Nat) : (salsa20Block key inp).length = 64 := by
  simp [salsa20Block, natToBytesLE_length]

theorem flatten_length_of_const {α β : Type} (f : α → List β) (k : Nat)
    (hf : ∀ a, (f a).length = k) :
    ∀ l : List α, ((l.map f).flatten).length = k * l.length := by
  intro l
  induction l with
  | nil => simp
  | cons a t ih =>
    simp [ih, hf a, Nat.mul_add, Nat.mul_one, Nat.add_comm]

theorem le_mul_64_div (len : Nat) : len ≤ 64 * ((len + 63) / 64) := by
  have h1 := Nat.div_add_mod (len + 63) 64
  have h2 : (len + 63) % 64 < 64 := Nat.mod_lt _ (by norm_num)
  omega

theorem xsalsa20Stream_length (key nonce : List Nat) (len : Nat) :
    (xsalsa20Stream key nonce len).length = len := by
  rw [xsalsa20Stream, List.length_take,
    flatten_length_of_const (xsalsa20Block key nonce) 64 (fun i => salsa20Block_length _ _)]
  simp [List.length_range]
  exact le_mul_64_div len

theorem poly1305_length (msg key : List Nat) : (poly1305 msg key).length = 16 := by
  simp [poly1305, natToBytesLE_length]

theorem zipWith_xor_cancel (a b : List Nat) (h : a.length ≤ b.length) :
    List.zipWith Nat.xor (List.zipWith Nat.xor a b) b = a := by
  induction a generalizing b with
  | nil => simp
  | cons x xs ih =>
    cases b with
    | nil => simp at h
    | cons y ys =>
      simp only [List.length_cons] at h
      simp only [List.zipWith_cons_cons, List.cons.injEq]
      exact ⟨Nat.xor_cancel_right y x, ih ys (by omega)⟩

theorem Encrypt_ciphertext_length (p key nonce : List Nat) :
    (List.zipWith Nat.xor p ((xsalsa20Stream key nonce (32 + p.length)).drop 32)).length
      = p.length := by
  rw [List.length_zipWith, List.length_drop, xsalsa20Stream_length]
  omega

theorem SodiumCryptoProvider.Encrypt_length (p key nonce : List Nat) :
    (SodiumCryptoProvider.Encrypt p key nonce).length = p.length + 16 := by
  rw [SodiumCryptoProvider.Encrypt, crypto_secretbox_easy]
  simp only [List.length_append, poly1305_length, Encrypt_ciphertext_length]
  omega

theorem SodiumCryptoProvider.Decrypt_Encrypt (p key nonce : List Nat) :
    SodiumCryptoProvider.Decrypt (SodiumCryptoProvider.Encrypt p key nonce) key nonce
      = some p := by
  have hE := SodiumCryptoProvider.Encrypt_length p key nonce
  have hclen : (List.zipWith Nat.xor p
      ((xsalsa20Stream key nonce (32 + p.length)).drop 32)).length = p.length :=
    Encrypt_ciphertext_length p key nonce
  have htlen : (poly1305
      (List.zipWith Nat.xor p ((xsalsa20Stream key nonce (32 + p.length)).drop 32))
      ((xsalsa20Stream key nonce (32 + p.length)).take 32)).length = 16 :=
    poly1305_length _ _
  rw [SodiumCryptoProvider.Encrypt, crypto_secretbox_easy] at hE
  simp only [SodiumCryptoProvider.Decrypt, SodiumCryptoProvider.Encrypt,
    crypto_secretbox_easy, crypto_secretbox_open_easy]
  rw [if_neg (by omega), if_neg (by omega), List.drop_left' htlen, List.take_left' htlen,
    hclen, if_pos rfl]
  have hdlen : ((xsalsa20Stream key nonce (32 + p.length)).drop 32).length = p.length := by
    rw [List.length_drop, xsalsa20Stream_length]; omega
  rw [zipWith_xor_cancel p _ (by omega)]

/-! ## Association-list maps

`std::map` / `std::unordered_map` with unique keys, modelled as association
lists: find, `operator[]` assignment, `emplace` (no overwrite) and erase. -/

/-- Lookup in an association list (`map::find`). -/
def assocLookup {κ ν : Type} [DecidableEq κ] : List (κ × ν) → κ → Option ν
  | [], _ => none
  | (k, v) :: rest, key => if k = key then some v else assocLookup rest key

/-- Insert-or-assign in an association list (`map::operator[] = value`). -/
def assocStore {κ ν : Type} [DecidableEq κ] : List (κ × ν) → κ → ν → List (κ × ν)
  | [], key, v => [(key, v)]
  | (k, w) :: rest, key, v =>
    if k = key then (key, v) :: rest else (k, w) :: assocStore rest key v

/-- Insert-if-absent in an association list (`map::emplace`). -/
def assocEmplace {κ ν : Type} [DecidableEq κ]
    (m : List (κ × ν)) (key : κ) (v : ν) : List (κ × ν) :=
  if (assocLookup m key).isSome then m else m ++ [(key, v)]

/-- Erase in an association list (`map::erase`). -/
def assocErase {κ ν : Type} [DecidableEq κ] : List (κ × ν) → κ → List (κ × ν)
  | [], _ => []
  | (k, w) :: rest, key => if k = key then rest else (k, w) :: assocErase rest key

/-! ## LAN discovery (`src/discovery/peer_discovery.cpp`)

The listen loop parses `LINKNET_DISCOVERY:<port>` datagrams.  The functions
below translate what it does with a datagram once the port has been parsed:
the self-echo guard and the discovered-peers map update. -/

/-- Translation of the self-echo guard in `PeerDiscovery::ListenThreadFunc`:
the C++ condition is
`port == _port || (sender_ip == "127.0.0.1" && port == _port)`. -/
def PeerDiscovery.SkipsAnnounce (localPort : Nat) (senderIp : String) (port : Nat) : Bool :=
  port == localPort || (senderIp == "127.0.0.1" && port == localPort)

/-- Translation of the announce handling in `PeerDiscovery::ListenThreadFunc`
for a parsed announce: when the guard skips, nothing happens; otherwise a new
`"ip:port"` key is inserted with the current time and the discovered callback
fires, while a known key only has its timestamp refreshed.  Returns the new
discovered-peers map and the callback invocation, if any. -/
def PeerDiscovery.HandleAnnounce (localPort : Nat) (senderIp : String) (port : Nat)
    (peers : List (String × Nat)) (now : Nat) :
    List (String × Nat) × Option (String × Nat) :=
  if PeerDiscovery.SkipsAnnounce localPort senderIp port then (peers, none)
  else
    let peerKey := senderIp ++ ":" ++ toString port
    match assocLookup peers peerKey with
    | some _ => (assocStore peers peerKey now, none)
    | none => (peers ++ [(peerKey, now)], some (senderIp, port))

/-! ## File transfer (`src/file/file_transfer.cpp`)

`BasicFileTransferManager` keeps two maps keyed by `(peer_id, file_id)`.
File and socket side effects are abstracted as boolean oracles
(`openOk`, `writeOk`, `sendOk`) and recorded as effect lists. -/

/-- File transfer status (`linknet/types.h`). -/
inductive FileTransferStatus where
  | pending
  | inProgress
  | completed
  | failed
  | rejected
  deriving DecidableEq, Repr

/-- Translation of `BasicFileTransferManager::TransferInfo` (stream handles
are abstracted away; `receivedChunks` is the key set of the C++ map). -/
structure TransferInfo where
  filePath : String
  fileId : String
  fileSize : Nat
  peerId : List Nat
  status : FileTransferStatus
  bytesTransferred : Nat
  nextChunkIndex : Nat
  receivedChunks : List Nat
  deriving DecidableEq, Repr

/-- Messages the manager hands to `NetworkManager::SendMessage`. -/
inductive SentMessage where
  | request (peer : List Nat) (filename : String) (fileSize : Nat)
  | chunk (peer : List Nat) (fileId : String) (index : Nat) (dataLen : Nat)
  | complete (peer : List Nat) (fileId : String) (success : Bool) (error : String)
  deriving DecidableEq, Repr

/-- Observable side effects of one file-transfer handler invocation: network
sends, output-file writes as (seek offset, data) pairs, progress-callback
invocations as (peer, path, bytes transferred) and completed-callback
invocations as (peer, path, ok, error). -/
structure FtEffects where
  sent : List SentMessage
  writes : List (Nat × List Nat)
  progress : List (List Nat × String × Nat)
  completed : List (List Nat × String × Bool × String)
  deriving DecidableEq, Repr

/-- Effects of a handler invocation that did nothing observable. -/
def FtEffects.empty : FtEffects := ⟨[], [], [], []⟩

/-- Keys of the transfer maps: `(peer_id, file_id)`. -/
abbrev TransferKey : Type := List Nat × String

/-- Fixed chunk size (`DEFAULT_CHUNK_SIZE`, 16 KiB). -/
def DEFAULT_CHUNK_SIZE : Nat := 16384

/-- Translation of `BasicFileTransferManager::HandleFileTransferRequest`.
`accept` is the request callback's verdict (true when no callback is set) and
`openOk` tells whether creating `./downloads/<filename>` succeeded.  Returns
the new incoming map and the messages sent back. -/
def BasicFileTransferManager.HandleFileTransferRequest
    (incoming : List (TransferKey × TransferInfo)) (sender : List Nat)
    (filename : String) (fileSize : Nat) (accept openOk : Bool) :
    List (TransferKey × TransferInfo) × List SentMessage :=
  if ¬accept then
    (incoming, [.complete sender filename false "Transfer rejected by receiver"])
  else if ¬openOk then
    (incoming, [.complete sender filename false "Failed to create output file"])
  else
    (assocStore incoming (sender, filename)
      { filePath := "./downloads/" ++ filename
        fileId := filename
        fileSize := fileSize
        peerId := sender
        status := .inProgress
        bytesTransferred := 0
        nextChunkIndex := 0
        receivedChunks := [] }, [])

/-- Translation of `BasicFileTransferManager::HandleFileChunk`.  `writeOk`
tells whether the seek-and-write on the output stream succeeded. -/
def BasicFileTransferManager.HandleFileChunk
    (incoming : List (TransferKey × TransferInfo)) (sender : List Nat)
    (fileId : String) (chunkIndex : Nat) (data : List Nat) (writeOk : Bool) :
    List (TransferKey × TransferInfo) × FtEffects :=
  match assocLookup incoming (sender, fileId) with
  | none => (incoming, FtEffects.empty)
  | some transfer =>
    if chunkIndex ∈ transfer.receivedChunks then (incoming, FtEffects.empty)
    else if ¬writeOk then
      (assocErase incoming (sender, fileId),
       { sent := [.complete sender fileId false "Failed to write to output file"]
         writes := [(chunkIndex * DEFAULT_CHUNK_SIZE, data)]
         progress := []
         completed := [(sender, transfer.filePath, false, "Failed to write to output file")] })
    else
      let newBytes := transfer.bytesTransferred + data.length
      if newBytes ≥ transfer.fileSize then
        (assocErase incoming (sender, fileId),
         { sent := [.complete sender fileId true ""]
           writes := [(chunkIndex * DEFAULT_CHUNK_SIZE, data)]
           progress := [(sender, transfer.filePath, newBytes)]
           completed := [(sender, transfer.filePath, true, "")] })
      else
        (assocStore incoming (sender, fileId)
          { transfer with
            bytesTransferred := newBytes
            receivedChunks := chunkIndex :: transfer.receivedChunks },
         { sent := []
           writes := [(chunkIndex * DEFAULT_CHUNK_SIZE, data)]
           progress := [(sender, transfer.filePath, newBytes)]
           completed := [] })

/-- Base name of a path, as `std::filesystem::path(p).filename()` computes it
for the paths the manager handles. -/
def pathFilename (p : String) : String := (p.splitOn "/").getLastD ""

/-- Translation of `BasicFileTransferManager::SendFile`.  `fs` gives the size
of an existing file (`std::filesystem::exists` / `file_size`) and `sendOk` is
the result of `NetworkManager::SendMessage` for the request.  Returns the
C++ return value, the new outgoing map and the `SendMessage` calls made. -/
def BasicFileTransferManager.SendFile
    (outgoing : List (TransferKey × TransferInfo)) (peerId : List Nat)
    (filePath : String) (fs : String → Option Nat) (sendOk : Bool) :
    Bool × List (TransferKey × TransferInfo) × List SentMessage :=
  match fs filePath with
  | none => (false, outgoing, [])
  | some fileSize =>
    let filename := pathFilename filePath
    if ¬sendOk then (false, outgoing, [.request peerId filename fileSize])
    else
      (true,
       assocEmplace outgoing (peerId, filePath)
         { filePath := filePath
           fileId := filePath
           fileSize := fileSize
           peerId := peerId
           status := .pending
           bytesTransferred := 0
           nextChunkIndex := 0
           receivedChunks := [] },
       [.request peerId filename fileSize])

/-- Translation of the chunk-emission loop of
`BasicFileTransferManager::SendNextChunk` when every read and send succeeds:
each pass seeks to `next_chunk_index * chunk_size`, reads up to one chunk,
emits `(index, bytes_read)`, and recurses until `bytes_transferred` reaches
the file size or the read returns no bytes.  The fuel argument only bounds
the recursion; `fileSize / chunkSize + 2` passes always suffice. -/
def BasicFileTransferManager.SendChunkLoop (chunkSize : Nat) :
    Nat → Nat → Nat → Nat → List (Nat × Nat)
  | 0, _, _, _ => []
  | fuel + 1, fileSize, idx, bytes =>
    let pos := idx * chunkSize
    let bytesRead := min chunkSize (fileSize - pos)
    if bytesRead = 0 then []
    else
      (idx, bytesRead) ::
        (if bytes + bytesRead ≥ fileSize then []
         else BasicFileTransferManager.SendChunkLoop chunkSize fuel fileSize (idx + 1)
           (bytes + bytesRead))

/-- Chunks `(index, size)` emitted for a file of `fileSize` bytes, starting
from `next_chunk_index = 0` as `StartSendingFile` sets it. -/
def BasicFileTransferManager.SenderChunks (fileSize : Nat) : List (Nat × Nat) :=
  BasicFileTransferManager.SendChunkLoop DEFAULT_CHUNK_SIZE
    (fileSize / DEFAULT_CHUNK_SIZE + 2) fileSize 0 0

/-! ## Chat manager (`chat_manager.cpp`) -/

/-- Chat history entry (`ChatInfo`). -/
structure ChatInfo where
  senderId : List Nat
  senderName : String
  content : String
  timestamp : Nat
  deriving DecidableEq, Repr

/-- Translation of `ChatManager::GetChatHistory`: an absent peer yields the
empty vector; otherwise the whole history when it fits in `maxMessages`, and
the final `maxMessages` entries otherwise. -/
def ChatManager.GetChatHistory (history : List (List Nat × List ChatInfo))
    (peerId : List Nat) (maxMessages : Nat) : List ChatInfo :=
  match assocLookup history peerId with
  | none => []
  | some h => if h.length ≤ maxMessages then h else h.drop (h.length - maxMessages)

/-- Statement of the spec's history contract, written from the spec's words:
the most recent `min(max, n)` of the `n` stored entries, oldest first (the
stored list is append-ordered, so these are its last `min(max, n)`
elements). -/
def ChatManager.SpecHistory (history : List (List Nat × List ChatInfo))
    (peerId : List Nat) (maxMessages : Nat) : List ChatInfo :=
  let h := (assocLookup history peerId).getD []
  h.drop (h.length - min maxMessages h.length)

theorem assocLookup_assocStore {κ ν : Type} [DecidableEq κ]
    (m : List (κ × ν)) (k : κ) (v : ν) :
    assocLookup (assocStore m k v) k = some v := by
  induction m with
  | nil => simp [assocStore, assocLookup]
  | cons p rest ih =>
    obtain ⟨k', v'⟩ := p
    by_cases h : k' = k <;> simp [assocStore, assocLookup, h, ih]

/-! ## Claims -/

/-- C1 counterexample: `FileChunk` is a defined wire kind (tag 3) with its own
`Serialize`, yet `MessageFactory::CreateFromBuffer` returns null on its
serialized form, so the round trip through the factory fails for it. -/
theorem C1_fileChunk_not_roundtripped :
    MessageFactory.CreateFromBuffer
      (FileChunkMessage.Serialize
        { sender := List.replicate 32 7
          msgId := List.replicate 16 9
          timestamp := 1700000000
          fileId := [97]
          chunkIndex := 0
          data := [1, 2, 3] }) = none := by
  decide

/-- C1 (amended): for the two kinds the factory parses — `ChatMessage`
(tag 0) and `FileTransferRequestMessage` (tag 1) — parsing the serialized
form yields the same message back, preserving kind, sender, message id,
timestamp and body fields. -/
theorem C1_factory_roundtrip (m : FactoryMessage) (h : m.Wf) :
    MessageFactory.CreateFromBuffer m.Serialize = some m := by
  cases m with
  | chat c => exact MessageFactory.CreateFromBuffer_chat c h
  | fileRequest r => exact MessageFactory.CreateFromBuffer_fileRequest r h

/-- C1 witness: the round trip evaluated on a concrete chat message. -/
theorem C1_factory_roundtrip_witness :
    MessageFactory.CreateFromBuffer
      (FactoryMessage.Serialize (.chat { sender := List.replicate 32 1
                                         msgId := List.replicate 16 2
                                         timestamp := 1700000000
                                         content := [104, 105] }))
      = some (.chat { sender := List.replicate 32 1
                      msgId := List.replicate 16 2
                      timestamp := 1700000000
                      content := [104, 105] }) :=
  C1_factory_roundtrip _ (by unfold FactoryMessage.Wf ChatMessage.Wf; decide)

/-- C2 counterexample: the sender's chunk loop on a 50 KiB (51200-byte) file
does not emit chunks 0, 1, 2 of sizes 16384, 16384, 17792 — a chunk can never
exceed the 16384-byte chunk size. -/
theorem C2_claimed_chunks_wrong :
    BasicFileTransferManager.SenderChunks 51200
      ≠ [(0, 16384), (1, 16384), (2, 17792)] := by
  decide

/-- C2 (amended): for a 50 KiB (51200-byte) file the chunk loop emits exactly
chunks 0, 1, 2, 3 of sizes 16384, 16384, 16384 and 2048 bytes, sequentially
with `next_chunk_index` starting at 0. -/
theorem C2_chunks_of_50KiB :
    BasicFileTransferManager.SenderChunks 51200
      = [(0, 16384), (1, 16384), (2, 16384), (3, 2048)] := by
  decide

/-- C3: `MessageFactory::CreateFromBuffer` returns null for every buffer
whose first byte is neither 0 (ChatMessage) nor 1 (FileTransferRequest), so
FileChunk, FileTransferComplete, Ping, Pong and ConnectionNotification frames
are never handed to the inbound message callback (the session read loop only
invokes the callback on a non-null factory result). -/
theorem C3_unknown_tags_dropped (data : List Nat) (t : Nat)
    (hhead : data.head? = some t) (h0 : t ≠ 0) (h1 : t ≠ 1) :
    MessageFactory.CreateFromBuffer data = none := by
  cases data with
  | nil => simp at hhead
  | cons a l =>
    simp only [List.head?_cons, Option.some.injEq] at hhead
    subst hhead
    simp [MessageFactory.CreateFromBuffer, h0, h1]

/-- C3 witness: a frame with tag 6 (Ping) is dropped. -/
theorem C3_unknown_tags_dropped_witness :
    MessageFactory.CreateFromBuffer (6 :: List.replicate 56 0) = none :=
  C3_unknown_tags_dropped _ 6 rfl (by decide) (by decide)

/-- C4: for every plaintext, 32-byte key and 24-byte nonce, `Encrypt` yields
`len(plaintext) + 16` bytes and `Decrypt` with the same key and nonce returns
exactly the plaintext. -/
theorem C4_encrypt_decrypt_roundtrip (p key nonce : List Nat)
    (hk : key.length = 32) (hn : nonce.length = 24) :
    (SodiumCryptoProvider.Encrypt p key nonce).length = p.length + 16 ∧
      SodiumCryptoProvider.Decrypt (SodiumCryptoProvider.Encrypt p key nonce) key nonce
        = some p :=
  ⟨SodiumCryptoProvider.Encrypt_length p key nonce,
   SodiumCryptoProvider.Decrypt_Encrypt p key nonce⟩

/-- C4 witness: the round trip on the 12-byte plaintext "Hello, world"
with a concrete key and nonce. -/
theorem C4_encrypt_decrypt_roundtrip_witness :
    (List.replicate 32 5).length = 32 ∧ (List.replicate 24 6).length = 24 ∧
      ((SodiumCryptoProvider.Encrypt
          [72, 101, 108, 108, 111, 44, 32, 119, 111, 114, 108, 100]
          (List.replicate 32 5) (List.replicate 24 6)).length
        = [72, 101, 108, 108, 111, 44, 32, 119, 111, 114, 108, 100].length + 16 ∧
       SodiumCryptoProvider.Decrypt
          (SodiumCryptoProvider.Encrypt
            [72, 101, 108, 108, 111, 44, 32, 119, 111, 114, 108, 100]
            (List.replicate 32 5) (List.replicate 24 6))
          (List.replicate 32 5) (List.replicate 24 6)
        = some [72, 101, 108, 108, 111, 44, 32, 119, 111, 114, 108, 100]) :=
  ⟨by decide, by decide,
   C4_encrypt_decrypt_roundtrip _ _ _ (by decide) (by decide)⟩

/-- C5 counterexample: an announce from the non-loopback source 192.168.1.5
whose announced port equals the local port is ignored by the listen loop
(nothing recorded, no callback), whereas the claim says it is recorded and
reported. -/
theorem C5_nonloopback_same_port_ignored :
    PeerDiscovery.HandleAnnounce 8080 "192.168.1.5" 8080 [] 0 = ([], none) ∧
      "192.168.1.5" ≠ "127.0.0.1" := by
  constructor
  · rfl
  · decide

/-- C5 (amended): the listen loop ignores a well-formed announce exactly when
the announced port equals the local port, regardless of the source IP; an
announce with a different port from any source whose key is new is recorded
and reported via the discovered callback. -/
theorem C5_self_echo_guard (localPort : Nat) (senderIp : String) (port : Nat)
    (peers : List (String × Nat)) (now : Nat) :
    (PeerDiscovery.SkipsAnnounce localPort senderIp port = true ↔ port = localPort) ∧
      (port ≠ localPort →
        assocLookup peers (senderIp ++ ":" ++ toString port) = none →
        PeerDiscovery.HandleAnnounce localPort senderIp port peers now
          = (peers ++ [(senderIp ++ ":" ++ toString port, now)],
             some (senderIp, port))) := by
  constructor
  · simp [PeerDiscovery.SkipsAnnounce]
  · intro hne hlk
    have hskip : PeerDiscovery.SkipsAnnounce localPort senderIp port = false := by
      simp [PeerDiscovery.SkipsAnnounce, hne]
    simp [PeerDiscovery.HandleAnnounce, hskip, hlk]

/-- C5 witness: a fresh announce from 10.0.0.2 with port 9090 against local
port 8080 is recorded and reported. -/
theorem C5_self_echo_guard_witness :
    (PeerDiscovery.SkipsAnnounce 8080 "10.0.0.2" 9090 = true ↔ (9090 : Nat) = 8080) ∧
      PeerDiscovery.HandleAnnounce 8080 "10.0.0.2" 9090 [] 42
        = ([("10.0.0.2" ++ ":" ++ toString (9090 : Nat), 42)], some ("10.0.0.2", 9090)) :=
  ⟨(C5_self_echo_guard 8080 "10.0.0.2" 9090 [] 42).1,
   (C5_self_echo_guard 8080 "10.0.0.2" 9090 [] 42).2 (by decide) rfl⟩

/-- C6 counterexample: accepting a FileTransferRequest with declared total
size 0 does NOT complete the transfer immediately — the handler stores an
IN_PROGRESS entry and sends nothing, contradicting the claimed immediate
`FileTransferComplete(success=true)` and entry removal. -/
theorem C6_size_zero_not_immediate :
    BasicFileTransferManager.HandleFileTransferRequest [] (List.replicate 32 1)
        "f.txt" 0 true true
      = ([((List.replicate 32 1, "f.txt"),
           { filePath := "./downloads/f.txt"
             fileId := "f.txt"
             fileSize := 0
             peerId := List.replicate 32 1
             status := .inProgress
             bytesTransferred := 0
             nextChunkIndex := 0
             receivedChunks := [] })], []) := by
  decide

/-- C6 (amended): when a size-0 FileTransferRequest is accepted and the
output file opens, the receiver stores an IN_PROGRESS entry and emits no
message at all; the transfer completes — `FileTransferComplete(success=true)`
sent, completed callback fired, entry removed — only once some FileChunk for
it arrives (any chunk, since `bytes_transferred >= 0` always holds). -/
theorem C6_size_zero_completes_on_first_chunk
    (incoming : List (TransferKey × TransferInfo)) (sender : List Nat)
    (filename : String) (chunkIndex : Nat) (data : List Nat) :
    BasicFileTransferManager.HandleFileTransferRequest incoming sender filename 0 true true
      = (assocStore incoming (sender, filename)
          { filePath := "./downloads/" ++ filename
            fileId := filename
            fileSize := 0
            peerId := sender
            status := .inProgress
            bytesTransferred := 0
            nextChunkIndex := 0
            receivedChunks := [] }, []) ∧
    BasicFileTransferManager.HandleFileChunk
        (assocStore incoming (sender, filename)
          { filePath := "./downloads/" ++ filename
            fileId := filename
            fileSize := 0
            peerId := sender
            status := .inProgress
            bytesTransferred := 0
            nextChunkIndex := 0
            receivedChunks := [] })
        sender filename chunkIndex data true
      = (assocErase
          (assocStore incoming (sender, filename)
            { filePath := "./downloads/" ++ filename
              fileId := filename
              fileSize := 0
              peerId := sender
              status := .inProgress
              bytesTransferred := 0
              nextChunkIndex := 0
              receivedChunks := [] })
          (sender, filename),
         { sent := [.complete sender filename true ""]
           writes := [(chunkIndex * DEFAULT_CHUNK_SIZE, data)]
           progress := [(sender, "./downloads/" ++ filename, data.length)]
           completed := [(sender, "./downloads/" ++ filename, true, "")] }) := by
  refine ⟨rfl, ?_⟩
  rw [BasicFileTransferManager.HandleFileChunk]
  rw [assocLookup_assocStore]
  simp

/-- C7: a FileChunk whose index is already in the received-chunk set of the
matching incoming transfer is dropped: the transfer map (hence
bytes_transferred, the received set and the status) is unchanged, nothing is
written to the output file, and no message, progress callback or completion
callback is issued. -/
theorem C7_duplicate_chunk_dropped
    (incoming : List (TransferKey × TransferInfo)) (sender : List Nat)
    (fileId : String) (chunkIndex : Nat) (data : List Nat) (writeOk : Bool)
    (transfer : TransferInfo)
    (hfind : assocLookup incoming (sender, fileId) = some transfer)
    (hdup : chunkIndex ∈ transfer.receivedChunks) :
    BasicFileTransferManager.HandleFileChunk incoming sender fileId chunkIndex data writeOk
      = (incoming, FtEffects.empty) := by
  rw [BasicFileTransferManager.HandleFileChunk, hfind]
  simp [hdup]

/-- C7 witness: a duplicate of chunk 2 is dropped without any effect. -/
theorem C7_duplicate_chunk_dropped_witness :
    BasicFileTransferManager.HandleFileChunk
      [((List.replicate 32 1, "f.txt"),
        { filePath := "./downloads/f.txt"
          fileId := "f.txt"
          fileSize := 40000
          peerId := List.replicate 32 1
          status := .inProgress
          bytesTransferred := 16384
          nextChunkIndex := 0
          receivedChunks := [2] })]
      (List.replicate 32 1) "f.txt" 2 [9, 9, 9] true
      = ([((List.replicate 32 1, "f.txt"),
          { filePath := "./downloads/f.txt"
            fileId := "f.txt"
            fileSize := 40000
            peerId := List.replicate 32 1
            status := .inProgress
            bytesTransferred := 16384
            nextChunkIndex := 0
            receivedChunks := [2] })], FtEffects.empty) :=
  C7_duplicate_chunk_dropped _ _ _ _ _ _
    { filePath := "./downloads/f.txt"
      fileId := "f.txt"
      fileSize := 40000
      peerId := List.replicate 32 1
      status := .inProgress
      bytesTransferred := 16384
      nextChunkIndex := 0
      receivedChunks := [2] }
    (by decide) (by decide)

/-- C8: `SendFile` returns false without any `SendMessage` call when the path
does not exist; it returns false when the request send fails (no connected
session); and when the request has been sent it returns true and an outgoing
entry keyed by (peer, path) exists with status PENDING. -/
theorem C8_SendFile_contract
    (outgoing : List (TransferKey × TransferInfo)) (peerId : List Nat)
    (filePath : String) (fs : String → Option Nat) :
    (fs filePath = none →
      ∀ sendOk, BasicFileTransferManager.SendFile outgoing peerId filePath fs sendOk
        = (false, outgoing, [])) ∧
    (∀ sz, fs filePath = some sz →
      BasicFileTransferManager.SendFile outgoing peerId filePath fs false
        = (false, outgoing, [.request peerId (pathFilename filePath) sz])) ∧
    (∀ sz, fs filePath = some sz →
      assocLookup outgoing (peerId, filePath) = none →
      BasicFileTransferManager.SendFile outgoing peerId filePath fs true
        = (true,
           outgoing ++ [((peerId, filePath),
             { filePath := filePath
               fileId := filePath
               fileSize := sz
               peerId := peerId
               status := .pending
               bytesTransferred := 0
               nextChunkIndex := 0
               receivedChunks := [] })],
           [.request peerId (pathFilename filePath) sz])) := by
  refine ⟨?_, ?_, ?_⟩
  · intro hnone sendOk
    rw [BasicFileTransferManager.SendFile, hnone]
  · intro sz hsz
    rw [BasicFileTransferManager.SendFile, hsz]
    simp
  · intro sz hsz hfresh
    rw [BasicFileTransferManager.SendFile, hsz]
    simp [assocEmplace, hfresh]

/-- C8 witness: the three cases evaluated with a one-file filesystem in which
only "/tmp/a.bin" exists (5 bytes). -/
theorem C8_SendFile_contract_witness :
    BasicFileTransferManager.SendFile [] [1] "/missing"
        (fun p => if p = "/tmp/a.bin" then some 5 else none) true
      = (false, [], []) ∧
    BasicFileTransferManager.SendFile [] [1] "/tmp/a.bin"
        (fun p => if p = "/tmp/a.bin" then some 5 else none) false
      = (false, [], [.request [1] (pathFilename "/tmp/a.bin") 5]) ∧
    BasicFileTransferManager.SendFile [] [1] "/tmp/a.bin"
        (fun p => if p = "/tmp/a.bin" then some 5 else none) true
      = (true,
         [(([1], "/tmp/a.bin"),
           { filePath := "/tmp/a.bin"
             fileId := "/tmp/a.bin"
             fileSize := 5
             peerId := [1]
             status := .pending
             bytesTransferred := 0
             nextChunkIndex := 0
             receivedChunks := [] })],
         [.request [1] (pathFilename "/tmp/a.bin") 5]) :=
  ⟨(C8_SendFile_contract [] [1] "/missing" _).1 (by decide) true,
   (C8_SendFile_contract [] [1] "/tmp/a.bin" _).2.1 5 (by decide),
   (C8_SendFile_contract [] [1] "/tmp/a.bin" _).2.2 5 (by decide) rfl⟩

/-- C9: `Verify` is a total boolean function: it returns false whenever the
signature length differs from 64 bytes, and for 64-byte signatures it returns
the boolean verdict of `crypto_sign_verify_detached` (false on a bad
signature) rather than raising an error. -/
theorem C9_Verify_total (verifyDetached : List Nat → List Nat → List Nat → Bool)
    (message signature publicKey : List Nat) :
    (signature.length ≠ 64 →
      SodiumCryptoProvider.Verify verifyDetached message signature publicKey = false) ∧
    (signature.length = 64 →
      SodiumCryptoProvider.Verify verifyDetached message signature publicKey
        = verifyDetached signature message publicKey) := by
  constructor
  · intro h
    rw [SodiumCryptoProvider.Verify, if_pos h]
  · intro h
    rw [SodiumCryptoProvider.Verify, if_neg (by omega)]

/-- C9 witness: a 3-byte signature is rejected even under a primitive that
accepts everything, and a 64-byte signature gets the primitive's verdict. -/
theorem C9_Verify_total_witness :
    SodiumCryptoProvider.Verify (fun _ _ _ => true) [1] [2, 3, 4] [5] = false ∧
      SodiumCryptoProvider.Verify (fun _ _ _ => true) [1] (List.replicate 64 0) [5] = true :=
  ⟨(C9_Verify_total (fun _ _ _ => true) [1] [2, 3, 4] [5]).1 (by decide),
   (C9_Verify_total (fun _ _ _ => true) [1] (List.replicate 64 0) [5]).2 (by decide)⟩

/-- C10: `GetChatHistory(peer, max)` returns the most recent
`min(max, n)` stored entries for that peer in oldest-first order, and the
empty list for a peer with no stored history (equivalence with the spec's
contract, stated as `ChatManager.SpecHistory`). -/
theorem C10_GetChatHistory_spec (history : List (List Nat × List ChatInfo))
    (peerId : List Nat) (maxMessages : Nat) :
    ChatManager.GetChatHistory history peerId maxMessages
      = ChatManager.SpecHistory history peerId maxMessages := by
  rw [ChatManager.GetChatHistory, ChatManager.SpecHistory]
  cases h : assocLookup history peerId with
  | none => simp
  | some l =>
    simp only [Option.getD_some]
    by_cases hle : l.length ≤ maxMessages
    · rw [if_pos hle, show min maxMessages l.length = l.length by omega]
      simp
    · rw [if_neg hle, show min maxMessages l.length = maxMessages by omega]

end LinkNet
